import Mathlib

/-!
Verification of the mcp-replit-claude-max backend (ProjectManager,
TerminalManager, ClaudeCodeBridge and the MCP/HTTP request layer) via a
shallow embedding in Lean.  Paths are modelled as lists of characters,
JS `Map`s as association lists with replace-on-set semantics, and the
fallible operations return `Except`-style results paired with the
post-state.
-/

set_option maxRecDepth 8000

deriving instance DecidableEq for Except

namespace RCMax

/-- A filesystem path, as the list of characters of its string form. -/
abbrev FPath := List Char

/-! ### Association lists mirroring JS `Map` semantics -/

/-- Lookup the value bound to key `k` (JS `map.get(k)`). -/
def alLookup [DecidableEq κ] (k : κ) : List (κ × α) → Option α
  | [] => none
  | (k2, v) :: t => if k2 = k then some v else alLookup k t

/-- Bind `k` to `v`, replacing an existing binding in place or appending
a fresh one (JS `map.set(k, v)`). -/
def alSet [DecidableEq κ] (k : κ) (v : α) : List (κ × α) → List (κ × α)
  | [] => [(k, v)]
  | (k2, v2) :: t => if k2 = k then (k, v) :: t else (k2, v2) :: alSet k v t

/-- Remove every binding of key `k` (JS `map.delete(k)`; a JS `Map` never
holds a duplicate key, so removing all occurrences agrees with it on any
state reachable through `alSet`). -/
def alErase [DecidableEq κ] (k : κ) : List (κ × α) → List (κ × α)
  | [] => []
  | (k2, v) :: t => if k2 = k then alErase k t else (k2, v) :: alErase k t

/-- Number of bindings whose key is `k`. -/
def countKey [DecidableEq κ] (k : κ) : List (κ × α) → Nat
  | [] => 0
  | (k2, _) :: t => if k2 = k then countKey k t + 1 else countKey k t

theorem alLookup_alSet_self [DecidableEq κ] (k : κ) (v : α) (l : List (κ × α)) :
    alLookup k (alSet k v l) = some v := by
  induction l with
  | nil => simp [alLookup, alSet]
  | cons h t ih =>
    obtain ⟨k2, v2⟩ := h
    by_cases hk : k2 = k
    · simp [alLookup, alSet, hk]
    · simp [alLookup, alSet, hk, ih]

theorem alLookup_alSet_ne [DecidableEq κ] (k k2 : κ) (v : α) (l : List (κ × α))
    (h : k2 ≠ k) : alLookup k (alSet k2 v l) = alLookup k l := by
  induction l with
  | nil => simp [alLookup, alSet, h]
  | cons hd t ih =>
    obtain ⟨k3, v3⟩ := hd
    by_cases hk : k3 = k2
    · subst hk
      simp [alLookup, alSet, h]
    · simp only [alSet, if_neg hk]
      by_cases hk3 : k3 = k
      · simp [alLookup, hk3]
      · simp [alLookup, hk3, ih]

theorem countKey_alSet_self [DecidableEq κ] (k : κ) (v : α) (l : List (κ × α))
    (h : countKey k l ≤ 1) : countKey k (alSet k v l) = 1 := by
  induction l with
  | nil => simp [countKey, alSet]
  | cons hd t ih =>
    obtain ⟨k2, v2⟩ := hd
    by_cases hk : k2 = k
    · subst hk
      simp [alSet, countKey] at h ⊢
      omega
    · simp only [countKey, if_neg hk] at h
      simp only [alSet, if_neg hk, countKey, if_neg hk]
      exact ih h

theorem countKey_alSet_ne [DecidableEq κ] (k k2 : κ) (v : α) (l : List (κ × α))
    (h : k2 ≠ k) : countKey k (alSet k2 v l) = countKey k l := by
  induction l with
  | nil => simp [countKey, alSet, h]
  | cons hd t ih =>
    obtain ⟨k3, v3⟩ := hd
    by_cases hk : k3 = k2
    · subst hk
      simp [alSet, countKey, h]
    · simp [alSet, hk, countKey, ih]

theorem countKey_alErase [DecidableEq κ] (k : κ) (l : List (κ × α)) :
    countKey k (alErase k l) = 0 := by
  induction l with
  | nil => simp [countKey, alErase]
  | cons hd t ih =>
    obtain ⟨k2, v2⟩ := hd
    by_cases hk : k2 = k
    · simp [alErase, hk, ih]
    · simp [alErase, hk, countKey, ih]

theorem alLookup_alErase_self [DecidableEq κ] (k : κ) (l : List (κ × α)) :
    alLookup k (alErase k l) = none := by
  induction l with
  | nil => simp [alLookup, alErase]
  | cons hd t ih =>
    obtain ⟨k2, v2⟩ := hd
    by_cases hk : k2 = k
    · simp [alErase, hk, ih]
    · simp [alErase, hk, alLookup, ih]

theorem alLookup_alErase_ne [DecidableEq κ] (k k2 : κ) (l : List (κ × α))
    (h : k2 ≠ k) : alLookup k (alErase k2 l) = alLookup k l := by
  induction l with
  | nil => simp [alLookup, alErase]
  | cons hd t ih =>
    obtain ⟨k3, v3⟩ := hd
    by_cases hk : k3 = k2
    · subst hk
      simp [alErase, alLookup, h, ih]
    · simp [alErase, hk, alLookup, ih]

/-- `isPfx l₁ l₂` holds when `l₁` is a prefix of `l₂` (JS
`String.prototype.startsWith` on the character level). -/
def isPfx [DecidableEq α] : List α → List α → Bool
  | [], _ => true
  | _ :: _, [] => false
  | a :: as, b :: bs => a = b && isPfx as bs

/-! ### Node `path.join` on POSIX paths

`ProjectManager.readFile/writeFile/listFiles` compute
`path.join(projectPath, filePath)`; Node joins with a separator and
normalizes `.` and `..` segments (for an absolute result, `..` at the
root is dropped).  `projectPath` comes from `path.resolve`, hence is
absolute and normalized. -/

/-- Split a character list on `/`, keeping only non-empty segments. -/
def splitSegsAux (cur : List Char) : List Char → List (List Char)
  | [] => [cur.reverse]
  | c :: rest =>
    if c = '/' then cur.reverse :: splitSegsAux [] rest
    else splitSegsAux (c :: cur) rest

/-- Path segments of a string-form path, empty segments removed. -/
def splitSegs (p : FPath) : List (List Char) :=
  (splitSegsAux [] p).filter (fun s => s ≠ [])

/-- Normalize a segment list of an absolute path: drop `.`, let `..`
pop the previous segment (or vanish at the root), keep the rest.  This
is Node `path.posix.normalize` restricted to absolute paths. -/
def normSegsAux (acc : List (List Char)) : List (List Char) → List (List Char)
  | [] => acc.reverse
  | seg :: rest =>
    if seg = ['.'] then normSegsAux acc rest
    else if seg = ['.', '.'] then
      match acc with
      | [] => normSegsAux [] rest
      | _ :: t => normSegsAux t rest
    else normSegsAux (seg :: acc) rest

/-- Render an absolute path from its segments. -/
def renderAbs (segs : List (List Char)) : FPath :=
  '/' :: (List.intercalate ['/'] segs)

/-- Node `path.join(root, rel)` for an absolute, normalized `root`. -/
def joinAbs (root rel : FPath) : FPath :=
  renderAbs (normSegsAux [] (splitSegs root ++ splitSegs rel))

/-- The guard used by `readFile`, `writeFile` and `listFiles`
(`src/unnamed/part_006` lines 417-420, 439-442, 464-467): the
resolved path passes when it has the project path as a *string prefix*
(`fullPath.startsWith(projectPath)`). -/
def securityCheckPasses (projectPath filePath : FPath) : Bool :=
  isPfx projectPath (joinAbs projectPath filePath)

/-- A path is genuinely inside the project root when it is the root
itself or lies below it as a directory component. -/
def withinRoot (root p : FPath) : Bool :=
  decide (p = root) || isPfx (root ++ ['/']) p

/-- Node `path.dirname` of a normalized absolute path. -/
def dirname (p : FPath) : FPath :=
  renderAbs ((splitSegs p).dropLast)

/-! ### ProjectManager (`src/unnamed/part_006` lines 31-598)

State: the two in-memory `Map`s (`projects`, `containers`), plus the
external world it acts on: the Docker runtime's containers, and the
disk (a map from absolute file path to content, and the set of
directories).  `emitted` records the events this manager `emit`s. -/

inductive PStatus
  | creating
  | active
  | inactive
  | errorStatus
deriving DecidableEq

structure ProjectInfo where
  id : String
  name : String
  template : String
  descr : Option String
  createdAt : Nat
  lastAccessed : Nat
  path : FPath
  containerId : Option String
  status : PStatus
deriving DecidableEq

inductive PMEvent
  | projectCreated (projectId : String)
  | projectDeleted (projectId : String)
deriving DecidableEq

structure DockerContainer where
  containerId : String
  started : Bool
deriving DecidableEq

structure PMState where
  projectsDir : FPath
  projects : List (String × ProjectInfo)
  containers : List (String × String)
  dockerContainers : List (String × DockerContainer)
  fs : List (FPath × List Char)
  dirs : List FPath
  emitted : List PMEvent
deriving DecidableEq

inductive PMErr
  | notFound
  | accessDenied
  | ioFail
  | dockerFail
  | templateFail
  | saveFail
  | createContainerFail
  | startContainerFail
deriving DecidableEq

namespace ProjectManager

/-- Name of the per-project configuration record. -/
def configFileName : FPath := ".repliclaude-config.json".data

/-- Rendering of `JSON.stringify(projectInfo)` as stored by
`saveProjectConfig`; the claims only depend on the record being written
and carrying `lastAccessed`. -/
def encodeConfig (p : ProjectInfo) : List Char :=
  p.id.data ++ ('|' :: p.name.data) ++ ('|' :: (toString p.lastAccessed).data)

/-- `saveProjectConfig` (lines 371-374): writes the config record into
the project directory. -/
def saveProjectConfig (st : PMState) (p : ProjectInfo) : PMState :=
  { st with fs := alSet (joinAbs p.path configFileName) (encodeConfig p) st.fs }

/-- `getProjectPath` (lines 379-385): the project's storage path, or a
not-found error for an unknown id. -/
def getProjectPath (st : PMState) (projectId : String) : Except PMErr FPath :=
  match alLookup projectId st.projects with
  | none => .error .notFound
  | some p => .ok p.path

/-- `readFile` (lines 413-430): join the relative path onto the project
path, guard with `fullPath.startsWith(projectPath)`, then read. -/
def readFile (st : PMState) (projectId : String) (filePath : String) :
    Except PMErr (List Char) :=
  match getProjectPath st projectId with
  | .error e => .error e
  | .ok projectPath =>
    let fullPath := joinAbs projectPath filePath.data
    if !(isPfx projectPath fullPath) then .error .accessDenied
    else
      match alLookup fullPath st.fs with
      | some content => .ok content
      | none => .error .ioFail

/-- `writeFile` (lines 435-455): same guard, then `mkdir -p` of the
parent directory and the write. -/
def writeFile (st : PMState) (projectId : String) (filePath : String)
    (content : List Char) : Except PMErr Unit × PMState :=
  match getProjectPath st projectId with
  | .error e => (.error e, st)
  | .ok projectPath =>
    let fullPath := joinAbs projectPath filePath.data
    if !(isPfx projectPath fullPath) then (.error .accessDenied, st)
    else
      let dir := dirname fullPath
      (.ok (), { st with
        dirs := if dir ∈ st.dirs then st.dirs else dir :: st.dirs,
        fs := alSet fullPath content st.fs })

/-- `listFiles` (lines 460-506): same guard, then `readdir`.  The model
returns the stored paths below the directory; the hidden-file filter and
the sort order of the real listing are irrelevant to the path guard the
claims are about. -/
def listFiles (st : PMState) (projectId : String) (relativePath : String) :
    Except PMErr (List FPath) :=
  match getProjectPath st projectId with
  | .error e => .error e
  | .ok projectPath =>
    let fullPath := joinAbs projectPath relativePath.data
    if !(isPfx projectPath fullPath) then .error .accessDenied
    else if fullPath ∈ st.dirs then
      .ok ((st.fs.map (fun kv => kv.1)).filter (fun f => isPfx (fullPath ++ ['/']) f))
    else .error .ioFail

/-- `fs.rm(p, { recursive: true, force: true })`: drop the directory,
everything below it, and every file below it. -/
def removePathRec (st : PMState) (p : FPath) : PMState :=
  { st with
    dirs := st.dirs.filter (fun d => !(decide (d = p) || isPfx (p ++ ['/']) d)),
    fs := st.fs.filter (fun kv => !(decide (kv.1 = p) || isPfx (p ++ ['/']) kv.1)) }

/-- `getProjectInfo` (lines 390-401): not-found for an unknown id;
otherwise refresh `lastAccessed` to the current instant, persist the
config record, and return the record. -/
def getProjectInfo (st : PMState) (projectId : String) (now : Nat) :
    Except PMErr ProjectInfo × PMState :=
  match alLookup projectId st.projects with
  | none => (.error .notFound, st)
  | some p =>
    let p2 := { p with lastAccessed := now }
    let st1 := saveProjectConfig { st with projects := alSet projectId p2 st.projects } p2
    (.ok p2, st1)

/-- `listProjects` (lines 406-408): `Array.from(this.projects.values())`,
with no other effect. -/
def listProjects (st : PMState) : List ProjectInfo × PMState :=
  (st.projects.map (fun kv => kv.2), st)

/-- `deleteProject` (lines 543-572).  `containerStopOk` is the Docker
runtime's answer to the `container.stop()/container.remove()` calls;
when they throw (for instance because the container no longer exists)
the `catch` block rethrows and nothing after the failing call runs. -/
def deleteProject (st : PMState) (projectId : String) (containerStopOk : Bool) :
    Except PMErr Unit × PMState :=
  match alLookup projectId st.projects with
  | none => (.error .notFound, st)
  | some project =>
    match alLookup projectId st.containers with
    | some containerId =>
      if containerStopOk then
        let st1 := { st with
          containers := alErase projectId st.containers,
          dockerContainers := alErase containerId st.dockerContainers }
        let st2 := removePathRec st1 project.path
        (.ok (), { st2 with
          projects := alErase projectId st2.projects,
          emitted := st2.emitted ++ [.projectDeleted projectId] })
      else (.error .dockerFail, st)
    | none =>
      let st2 := removePathRec st project.path
      (.ok (), { st2 with
        projects := alErase projectId st2.projects,
        emitted := st2.emitted ++ [.projectDeleted projectId] })

/-- The steps of `createProject` (lines 90-143) that run after the
project directory has been created and that the code can fail in:
template scaffolding, the first config save, container creation,
container start, and the final config save. -/
inductive CreateStep
  | templateStep
  | saveStep1
  | createContainerStep
  | startContainerStep
  | saveStep2
deriving DecidableEq

/-- Content written for the template's `README.md` (every template of
`initializeTemplate`, lines 148-335, writes a `README.md`). -/
def readmeContent : List Char := "# My Project".data

/-- `createProject` (lines 90-143).  `failAt` injects a failure into
the named step; the `catch` block removes the project directory
recursively and rethrows. -/
def createProject (st : PMState) (projectId name template : String) (now : Nat)
    (failAt : Option CreateStep) : Except PMErr String × PMState :=
  let projectPath := joinAbs st.projectsDir projectId.data
  let st0 := { st with dirs := projectPath :: st.dirs }
  if failAt = some .templateStep then (.error .templateFail, removePathRec st0 projectPath)
  else
  let st1 := { st0 with
    fs := alSet (joinAbs projectPath "README.md".data) readmeContent st0.fs }
  if failAt = some .saveStep1 then (.error .saveFail, removePathRec st1 projectPath)
  else
  let info : ProjectInfo :=
    { id := projectId, name := name, template := template, descr := none,
      createdAt := now, lastAccessed := now, path := projectPath,
      containerId := none, status := .creating }
  let st2 := saveProjectConfig st1 info
  if failAt = some .createContainerStep then
    (.error .createContainerFail, removePathRec st2 projectPath)
  else
  let containerId := "repliclaude_" ++ projectId
  let st3 := { st2 with
    dockerContainers :=
      alSet containerId { containerId := containerId, started := false } st2.dockerContainers }
  if failAt = some .startContainerStep then
    (.error .startContainerFail, removePathRec st3 projectPath)
  else
  let st4 := { st3 with
    dockerContainers :=
      alSet containerId { containerId := containerId, started := true } st3.dockerContainers }
  let info2 := { info with containerId := some containerId, status := .active }
  let st5 := { st4 with
    containers := alSet projectId containerId st4.containers,
    projects := alSet projectId info2 st4.projects }
  if failAt = some .saveStep2 then (.error .saveFail, removePathRec st5 projectPath)
  else
  let st6 := saveProjectConfig st5 info2
  (.ok projectId, { st6 with emitted := st6.emitted ++ [.projectCreated projectId] })

end ProjectManager

/-! ### TerminalManager (`src/unnamed/part_006` lines 616-983) -/

structure PtyProc where
  input : List Char
  cols : Nat
  rows : Nat
  signals : List String
deriving DecidableEq

structure TerminalSession where
  projectId : String
  sessionId : String
  workingDir : FPath
  startTime : Nat
  lastActivity : Nat
  isActive : Bool
deriving DecidableEq

inductive TMEvent
  | sessionKilled (sessionId : String)
deriving DecidableEq

structure TMState where
  sessions : List (String × TerminalSession)
  sessionsByProject : List (String × List String)
  ptys : List (String × PtyProc)
  pendingCleanup : List String
  emitted : List TMEvent
deriving DecidableEq

namespace TerminalManager

/-- Write characters to the pty handle of a session. -/
def ptyWrite (st : TMState) (sessionId : String) (data : List Char) : TMState :=
  { st with ptys :=
      (match alLookup sessionId st.ptys with
       | some pty => alSet sessionId { pty with input := pty.input ++ data } st.ptys
       | none => st.ptys) }

/-- `writeToSession` (lines 700-715): `false` when the session is
missing or inactive, otherwise write to the pty, refresh
`lastActivity`, and report `true`. -/
def writeToSession (st : TMState) (sessionId : String) (data : List Char) (now : Nat) :
    Bool × TMState :=
  match alLookup sessionId st.sessions with
  | none => (false, st)
  | some s =>
    if !s.isActive then (false, st)
    else
      (true, { ptyWrite st sessionId data with
        sessions := alSet sessionId { s with lastActivity := now } st.sessions })

/-- `resizeSession` (lines 720-734): same guard, then resize the pty
(`lastActivity` is not touched). -/
def resizeSession (st : TMState) (sessionId : String) (cols rows : Nat) :
    Bool × TMState :=
  match alLookup sessionId st.sessions with
  | none => (false, st)
  | some s =>
    if !s.isActive then (false, st)
    else
      (true, { st with ptys :=
        (match alLookup sessionId st.ptys with
         | some pty => alSet sessionId { pty with cols := cols, rows := rows } st.ptys
         | none => st.ptys) })

/-- `interruptSession` (lines 930-943): same guard, then write the
`Ctrl+C` byte to the pty. -/
def interruptSession (st : TMState) (sessionId : String) : Bool × TMState :=
  match alLookup sessionId st.sessions with
  | none => (false, st)
  | some s =>
    if !s.isActive then (false, st)
    else (true, ptyWrite st sessionId ['\x03'])

/-- `clearSession` (lines 948-961): same guard, then write the
form-feed byte to the pty. -/
def clearSession (st : TMState) (sessionId : String) : Bool × TMState :=
  match alLookup sessionId st.sessions with
  | none => (false, st)
  | some s =>
    if !s.isActive then (false, st)
    else (true, ptyWrite st sessionId ['\x0c'])

/-- The common guard of the four pty operations above: the session is
absent from the registry or marked inactive. -/
def sessionMissingOrInactive (st : TMState) (sessionId : String) : Bool :=
  match alLookup sessionId st.sessions with
  | none => true
  | some s => !s.isActive

/-- `killSession` (lines 798-831): `false` when the session is absent
from the registry (an already-cleaned-up session), otherwise send
`SIGTERM` to the pty, mark the session inactive, schedule the delayed
forced registry cleanup, and emit `session-killed`. -/
def killSession (st : TMState) (sessionId : String) : Bool × TMState :=
  match alLookup sessionId st.sessions with
  | none => (false, st)
  | some s =>
    let st1 := ptyWrite st sessionId []
    let st2 := { st1 with
      ptys := (match alLookup sessionId st1.ptys with
               | some pty =>
                 alSet sessionId { pty with signals := pty.signals ++ ["SIGTERM"] } st1.ptys
               | none => st1.ptys),
      sessions := alSet sessionId { s with isActive := false } st1.sessions,
      pendingCleanup := st1.pendingCleanup ++ [sessionId],
      emitted := st1.emitted ++ [.sessionKilled sessionId] }
    (true, st2)

end TerminalManager

/-! ### ClaudeCodeBridge sessions
(`src/server/src/websocket/socketServer.ts` lines 456-798) -/

structure ClaudeCodeSession where
  projectId : String
  procId : Nat
  workingDir : FPath
  startTime : Nat
  lastActivity : Nat
  isInteractive : Bool
deriving DecidableEq

/-- One spawned agent process: what has been written to its stdin and
which kill signals it has received. -/
structure AgentProc where
  stdinData : List Char
  exitWritten : Bool
  killSignals : List String
deriving DecidableEq

structure BridgeState where
  isClaudeCodeAvailable : Bool
  activeProcesses : List (String × Nat)
  sessionStates : List (String × ClaudeCodeSession)
  procs : List (Nat × AgentProc)
  nextPid : Nat
deriving DecidableEq

inductive BridgeErr
  | agentUnavailable
deriving DecidableEq

namespace ClaudeCodeBridge

/-- The graceful-then-forceful stop applied to a live process by
`terminateSession` (lines 679-709): write `exit` to its stdin, then the
scheduled `SIGTERM` if it has not died within the grace window. -/
def markTerminated (procId : Nat) (l : List (Nat × AgentProc)) : List (Nat × AgentProc) :=
  match alLookup procId l with
  | some p =>
      alSet procId
        { p with exitWritten := true, killSignals := p.killSignals ++ ["SIGTERM"] } l
  | none => l

/-- `terminateSession` (lines 679-709): `false` when either registry has
no entry for the project; otherwise stop the process gracefully then
forcefully and clear both registry entries. -/
def terminateSession (st : BridgeState) (projectId : String) : Bool × BridgeState :=
  match alLookup projectId st.activeProcesses, alLookup projectId st.sessionStates with
  | some procId, some _ =>
    (true, { st with
      procs := markTerminated procId st.procs,
      activeProcesses := alErase projectId st.activeProcesses,
      sessionStates := alErase projectId st.sessionStates })
  | _, _ => (false, st)

/-- `sendToSession` (lines 656-674): write to the live session's stdin
and refresh its `lastActivity`; `false` when no live session exists. -/
def sendToSession (st : BridgeState) (projectId : String) (input : List Char) (now : Nat) :
    Bool × BridgeState :=
  match alLookup projectId st.activeProcesses, alLookup projectId st.sessionStates with
  | some procId, some s =>
    (true, { st with
      procs := (match alLookup procId st.procs with
                | some p =>
                  alSet procId { p with stdinData := p.stdinData ++ input ++ ['\n'] } st.procs
                | none => st.procs),
      sessionStates := alSet projectId { s with lastActivity := now } st.sessionStates })
  | _, _ => (false, st)

/-- The initial context message `startInteractiveSession` sends. -/
def initialContext : List Char := "Please help me with coding tasks.".data

/-- The spawn-and-register phase of `startInteractiveSession`
(lines 595-647): spawn a fresh agent process and record it in
`activeProcesses` and `sessionStates`. -/
def spawnAndRegister (st1 : BridgeState) (projectId : String) (workingDir : FPath)
    (now : Nat) : BridgeState :=
  { st1 with
    procs := st1.procs ++ [(st1.nextPid, { stdinData := [], exitWritten := false, killSignals := [] })]
    nextPid := st1.nextPid + 1
    activeProcesses := alSet projectId st1.nextPid st1.activeProcesses
    sessionStates := alSet projectId
      { projectId := projectId, procId := st1.nextPid, workingDir := workingDir,
        startTime := now, lastActivity := now, isInteractive := true } st1.sessionStates }

/-- `startInteractiveSession` (lines 580-651): fail fast when the CLI is
unavailable; otherwise terminate any existing session for the project,
spawn a fresh process, register it in both maps, and send the initial
context message. -/
def startInteractiveSession (st : BridgeState) (projectId : String) (workingDir : FPath)
    (now : Nat) : Except BridgeErr Unit × BridgeState :=
  if !st.isClaudeCodeAvailable then (.error .agentUnavailable, st)
  else
    (.ok (),
      (sendToSession (spawnAndRegister (terminateSession st projectId).2 projectId workingDir now)
        projectId initialContext now).2)

/-! #### One-shot `executeCommand` (lines 498-575)

The promise executor spawns the process, wires the stream handlers,
arms a 30 s timeout for a non-interactive call, writes the command and
closes stdin, and registers the process handle.  The run of one call is
the fold of the handler events the Node event loop later delivers. -/

inductive ExecErr
  | commandTimedOut
  | agentError (code : Int)
  | spawnError
deriving DecidableEq

/-- State of one `executeCommand` invocation. -/
structure ExecState where
  killed : Bool
  exitCode : Option Int
  output : List Char
  errorOutput : List Char
  settled : Option (Except ExecErr (List Char))
  timeoutArmed : Bool
  handleRegistered : Bool
  stdinClosed : Bool
deriving DecidableEq

/-- The timeout applied to a non-interactive call, in milliseconds
(line 529: `}, 30000); // 30 second timeout`). -/
def execTimeoutMs : Nat := 30000

/-- State right after the promise executor of `executeCommand` has run:
the timeout is armed and stdin closed exactly when the call is
non-interactive, and the process handle is registered under the
projectId. -/
def execInit (interactive : Bool) : ExecState :=
  { killed := false, exitCode := none, output := [], errorOutput := [],
    settled := none, timeoutArmed := !interactive, handleRegistered := true,
    stdinClosed := !interactive }

inductive ExecEv
  | stdoutData (d : List Char)
  | stderrData (d : List Char)
  | timeoutFire
  | closeEv (code : Int)
  | errorEv
deriving DecidableEq

/-- One handler firing.  `timeoutFire` is the `setTimeout` callback
(kill the process, reject with the timeout error); `closeEv` is the
`close` handler (clear the timeout, drop the registry entry, settle);
`errorEv` the `error` handler.  A JS promise keeps its first
settlement. -/
def execStep (s : ExecState) : ExecEv → ExecState
  | .stdoutData d => { s with output := s.output ++ d }
  | .stderrData d => { s with errorOutput := s.errorOutput ++ d }
  | .timeoutFire =>
    if s.timeoutArmed then
      { s with
        killed := true
        timeoutArmed := false
        settled := (match s.settled with
                    | none => some (.error .commandTimedOut)
                    | some r => some r) }
    else s
  | .closeEv code =>
    { s with
      exitCode := some code
      timeoutArmed := false
      handleRegistered := false
      settled := (match s.settled with
                  | none => some (if code = 0 then .ok s.output else .error (.agentError code))
                  | some r => some r) }
  | .errorEv =>
    { s with
      timeoutArmed := false
      handleRegistered := false
      settled := (match s.settled with
                  | none => some (.error .spawnError)
                  | some r => some r) }

/-- The state of one `executeCommand` call after the given handler
events have fired. -/
def execRun (interactive : Bool) (evs : List ExecEv) : ExecState :=
  evs.foldl execStep (execInit interactive)

/-- Events that settle or end the call (process exit, spawn error, or
the timeout itself). -/
def isExitEvent : ExecEv → Bool
  | .closeEv _ => true
  | .errorEv => true
  | .timeoutFire => true
  | _ => false

end ClaudeCodeBridge

/-! ### Scope semantics for `TerminalManager.executeCommand`
(`src/unnamed/part_006` lines 739-793)

The promise executor contains
`const process = spawn('bash', ['-c', command], { cwd: dir, env: { ...process.env, ... } })`.
A `const`/`let` binding exists, uninitialized, from the top of its block
scope; reading it before its initializer completes throws a
`ReferenceError` (the temporal dead zone).  The spread `...process.env`
inside the initializer of `const process` resolves the identifier
`process` to that uninitialized binding, shadowing the Node global. -/

inductive JsBind
  | uninitialized
  | initialized
deriving DecidableEq

inductive JsException
  | referenceError (name : String)
deriving DecidableEq

/-- Resolve an identifier through the lexical scopes, innermost first;
falling through every scope reaches the global object (where `process`
exists and is initialized). -/
def resolveIdent : List (List (String × JsBind)) → String → Except JsException Unit
  | [], _ => .ok ()
  | sc :: outer, x =>
    match alLookup x sc with
    | some .uninitialized => .error (.referenceError x)
    | some .initialized => .ok ()
    | none => resolveIdent outer x

namespace TerminalManager

/-- The executor's block scope at the instant the arguments of the
`spawn` call are evaluated: `process` (the `const` being initialized),
`output` and `errorOutput` are hoisted and still uninitialized. -/
def executorScopeAtSpawn : List (String × JsBind) :=
  [("process", .uninitialized), ("output", .uninitialized), ("errorOutput", .uninitialized)]

structure SpawnOpts where
  cwd : FPath
  env : List (String × String)
deriving DecidableEq

/-- Evaluate the options argument of the `spawn` call: building
`{ cwd: dir, env: { ...process.env, PROJECT_ID: projectId } }` resolves
the identifier `process` in the current scope chain. -/
def evalSpawnOpts (globalEnv : List (String × String)) (projectId : String) (dir : FPath) :
    Except JsException SpawnOpts :=
  match resolveIdent [executorScopeAtSpawn] "process" with
  | .error e => .error e
  | .ok _ => .ok { cwd := dir, env := globalEnv ++ [("PROJECT_ID", projectId)] }

structure ExecOutcome where
  promise : Except JsException (List Char)
  spawned : Bool
deriving DecidableEq

/-- `TerminalManager.executeCommand(projectId, command, workingDir?)`:
the promise executor evaluates the `spawn` call; an exception thrown
while evaluating its arguments rejects the returned promise before any
child process is spawned.  (The `.ok` branch below — reporting a
spawned process — is unreachable; this is the content of the
corresponding theorem.) -/
def executeCommand (globalEnv : List (String × String)) (projectId command : String)
    (workingDir : Option FPath) : ExecOutcome :=
  let dir := workingDir.getD ("/projects/".data ++ projectId.data)
  match evalSpawnOpts globalEnv projectId dir with
  | .error e => { promise := .error e, spawned := false }
  | .ok _ => { promise := .ok [], spawned := true }

end TerminalManager

/-! ### Concrete states used to evaluate the model -/

def demoProject : ProjectInfo :=
  { id := "p1", name := "demo", template := "empty", descr := none,
    createdAt := 0, lastAccessed := 5, path := "/projects/p1".data,
    containerId := some "cont1", status := .active }

def pmDemoState : PMState :=
  { projectsDir := "/projects".data
    projects := [("p1", demoProject)]
    containers := [("p1", "cont1")]
    dockerContainers := [("cont1", { containerId := "cont1", started := true })]
    fs := [("/projects/p1evil/secret".data, "outside-data".data)]
    dirs := ["/projects".data, "/projects/p1".data, "/projects/p1evil".data]
    emitted := [] }

def liveSession : TerminalSession :=
  { projectId := "p1", sessionId := "term1", workingDir := "/projects/p1".data,
    startTime := 0, lastActivity := 0, isActive := true }

def deadSession : TerminalSession :=
  { liveSession with sessionId := "term2", isActive := false }

def tmDemoState : TMState :=
  { sessions := [("term1", liveSession), ("term2", deadSession)]
    sessionsByProject := [("p1", ["term1", "term2"])]
    ptys := [("term1", { input := [], cols := 80, rows := 24, signals := [] }),
             ("term2", { input := [], cols := 80, rows := 24, signals := [] })]
    pendingCleanup := []
    emitted := [] }

def bridgeEmptyState : BridgeState :=
  { isClaudeCodeAvailable := true, activeProcesses := [], sessionStates := [],
    procs := [], nextPid := 0 }

/-! ## Further association-list lemmas -/

theorem alLookup_mem [DecidableEq κ] {k : κ} {v : α} {l : List (κ × α)}
    (h : alLookup k l = some v) : (k, v) ∈ l := by
  induction l with
  | nil => simp [alLookup] at h
  | cons hd t ih =>
    obtain ⟨k2, v2⟩ := hd
    by_cases hk : k2 = k
    · subst hk
      simp [alLookup] at h
      subst h
      exact List.mem_cons_self _ _
    · simp only [alLookup, if_neg hk] at h
      exact List.mem_cons_of_mem _ (ih h)

theorem mem_alSet [DecidableEq κ] {q : κ × α} (k : κ) (v : α) (l : List (κ × α)) :
    q ∈ alSet k v l → q = (k, v) ∨ q ∈ l := by
  induction l with
  | nil => intro h; simpa [alSet] using h
  | cons hd t ih =>
    obtain ⟨k2, v2⟩ := hd
    intro h
    by_cases hk : k2 = k
    · subst hk
      rw [alSet, if_pos rfl] at h
      rcases List.mem_cons.mp h with h1 | h1
      · exact Or.inl h1
      · exact Or.inr (List.mem_cons_of_mem _ h1)
    · rw [alSet, if_neg hk] at h
      rcases List.mem_cons.mp h with h1 | h1
      · exact Or.inr (h1 ▸ List.mem_cons_self _ _)
      · rcases ih h1 with h2 | h2
        · exact Or.inl h2
        · exact Or.inr (List.mem_cons_of_mem _ h2)

theorem countKey_alErase_le [DecidableEq κ] (k k2 : κ) (l : List (κ × α)) :
    countKey k (alErase k2 l) ≤ countKey k l := by
  induction l with
  | nil => simp [countKey, alErase]
  | cons hd t ih =>
    obtain ⟨k3, v3⟩ := hd
    by_cases hk : k3 = k2
    · by_cases hk3 : k3 = k
      · simp only [alErase, if_pos hk, countKey, if_pos hk3]
        omega
      · simp only [alErase, if_pos hk, countKey, if_neg hk3]
        exact ih
    · by_cases hk3 : k3 = k
      · simp only [alErase, if_neg hk, countKey, if_pos hk3]
        omega
      · simp only [alErase, if_neg hk, countKey, if_neg hk3]
        exact ih

theorem alLookup_none_of_keys_ne [DecidableEq κ] {k : κ} {l : List (κ × α)}
    (h : ∀ q ∈ l, q.1 ≠ k) : alLookup k l = none := by
  induction l with
  | nil => rfl
  | cons hd t ih =>
    obtain ⟨k2, v2⟩ := hd
    have hne : k2 ≠ k := h (k2, v2) (List.mem_cons_self _ _)
    simp only [alLookup, if_neg hne]
    exact ih fun q hq => h q (List.mem_cons_of_mem _ hq)

theorem alLookup_append_left [DecidableEq κ] {k : κ} {v : α} {l1 l2 : List (κ × α)}
    (h : alLookup k l1 = some v) : alLookup k (l1 ++ l2) = some v := by
  induction l1 with
  | nil => simp [alLookup] at h
  | cons hd t ih =>
    obtain ⟨k2, v2⟩ := hd
    by_cases hk : k2 = k
    · simp only [alLookup, if_pos hk] at h
      simp [alLookup, hk, h]
    · simp only [alLookup, if_neg hk] at h
      simp [alLookup, hk, ih h]

theorem alLookup_append_none [DecidableEq κ] {k : κ} {l1 l2 : List (κ × α)}
    (h : alLookup k l1 = none) : alLookup k (l1 ++ l2) = alLookup k l2 := by
  induction l1 with
  | nil => simp
  | cons hd t ih =>
    obtain ⟨k2, v2⟩ := hd
    by_cases hk : k2 = k
    · simp [alLookup, hk] at h
    · simp only [alLookup, if_neg hk] at h
      simp [alLookup, hk, ih h]

theorem alSet_append_keys_ne [DecidableEq κ] {k : κ} (v : α) {l1 l2 : List (κ × α)}
    (h : ∀ q ∈ l1, q.1 ≠ k) : alSet k v (l1 ++ l2) = l1 ++ alSet k v l2 := by
  induction l1 with
  | nil => simp
  | cons hd t ih =>
    obtain ⟨k2, v2⟩ := hd
    have hne : k2 ≠ k := h (k2, v2) (List.mem_cons_self _ _)
    simp only [List.cons_append, alSet, if_neg hne, List.append_eq]
    rw [ih fun q hq => h q (List.mem_cons_of_mem _ hq)]

theorem not_mem_removePathRec_dirs (st : PMState) (p : FPath) :
    p ∉ (ProjectManager.removePathRec st p).dirs := by
  intro hmem
  unfold ProjectManager.removePathRec at hmem
  simp only [List.mem_filter] at hmem
  simp at hmem

theorem alSet_alSet [DecidableEq κ] (k : κ) (v w : α) (l : List (κ × α)) :
    alSet k v (alSet k w l) = alSet k v l := by
  induction l with
  | nil => simp [alSet]
  | cons hd t ih =>
    obtain ⟨k2, v2⟩ := hd
    by_cases hk : k2 = k
    · simp [alSet, hk]
    · simp [alSet, hk, ih]

theorem countKeyOnce_alSet [DecidableEq κ] (k2 : κ) (v : α) (l : List (κ × α))
    (h : ∀ k, countKey k l ≤ 1) : ∀ k, countKey k (alSet k2 v l) ≤ 1 := by
  intro k
  by_cases hk : k = k2
  · subst hk
    rw [countKey_alSet_self k v l (h k)]
  · rw [countKey_alSet_ne k k2 v l (fun hc => hk hc.symm)]
    exact h k

/-! ## ClaudeCodeBridge lemmas -/

theorem terminateSession_eq (st : BridgeState) (projectId : String) :
    (ClaudeCodeBridge.terminateSession st projectId).2 = st ∨
    ∃ pid, alLookup projectId st.activeProcesses = some pid ∧
      (ClaudeCodeBridge.terminateSession st projectId).2 =
        { st with
          procs := ClaudeCodeBridge.markTerminated pid st.procs
          activeProcesses := alErase projectId st.activeProcesses
          sessionStates := alErase projectId st.sessionStates } := by
  unfold ClaudeCodeBridge.terminateSession
  cases hA : alLookup projectId st.activeProcesses with
  | none => exact Or.inl rfl
  | some pid =>
    cases hS : alLookup projectId st.sessionStates with
    | none => exact Or.inl rfl
    | some s => exact Or.inr ⟨pid, rfl, rfl⟩

theorem markTerminated_keys_lt (pid : Nat) (l : List (Nat × AgentProc)) (n : Nat)
    (h : ∀ q ∈ l, q.1 < n) :
    ∀ q ∈ ClaudeCodeBridge.markTerminated pid l, q.1 < n := by
  unfold ClaudeCodeBridge.markTerminated
  cases hl : alLookup pid l with
  | none => exact h
  | some pr =>
    intro q hq
    rcases mem_alSet _ _ _ hq with h2 | h2
    · have := h _ (alLookup_mem hl)
      simp only [h2]
      exact this
    · exact h q h2

theorem terminateSession_props (st : BridgeState) (projectId : String) :
    (ClaudeCodeBridge.terminateSession st projectId).2.isClaudeCodeAvailable =
      st.isClaudeCodeAvailable ∧
    (ClaudeCodeBridge.terminateSession st projectId).2.nextPid = st.nextPid ∧
    (∀ k, countKey k (ClaudeCodeBridge.terminateSession st projectId).2.sessionStates ≤
      countKey k st.sessionStates) ∧
    (∀ k, countKey k (ClaudeCodeBridge.terminateSession st projectId).2.activeProcesses ≤
      countKey k st.activeProcesses) ∧
    (∀ n, (∀ q ∈ st.procs, q.1 < n) →
      ∀ q ∈ (ClaudeCodeBridge.terminateSession st projectId).2.procs, q.1 < n) := by
  rcases terminateSession_eq st projectId with h | ⟨pid, hA, h⟩ <;> rw [h]
  · exact ⟨rfl, rfl, fun k => le_refl _, fun k => le_refl _, fun n hn => hn⟩
  · exact ⟨rfl, rfl, fun k => countKey_alErase_le k projectId st.sessionStates,
      fun k => countKey_alErase_le k projectId st.activeProcesses,
      fun n hn => markTerminated_keys_lt pid st.procs n hn⟩

theorem terminateSession_found (st : BridgeState) (projectId : String) (pid : Nat)
    (s : ClaudeCodeSession)
    (hA : alLookup projectId st.activeProcesses = some pid)
    (hS : alLookup projectId st.sessionStates = some s) :
    ClaudeCodeBridge.terminateSession st projectId =
      (true, { st with
        procs := ClaudeCodeBridge.markTerminated pid st.procs
        activeProcesses := alErase projectId st.activeProcesses
        sessionStates := alErase projectId st.sessionStates }) := by
  unfold ClaudeCodeBridge.terminateSession
  rw [hA, hS]

theorem markTerminated_eq (pid : Nat) (l : List (Nat × AgentProc)) (pr : AgentProc)
    (h : alLookup pid l = some pr) :
    ClaudeCodeBridge.markTerminated pid l =
      alSet pid { pr with exitWritten := true, killSignals := pr.killSignals ++ ["SIGTERM"] } l := by
  unfold ClaudeCodeBridge.markTerminated
  rw [h]

theorem startBody_eq (st1 : BridgeState) (projectId : String) (wd : FPath) (now : Nat)
    (hfresh : ∀ q ∈ st1.procs, q.1 < st1.nextPid) :
    (ClaudeCodeBridge.sendToSession
      (ClaudeCodeBridge.spawnAndRegister st1 projectId wd now)
      projectId ClaudeCodeBridge.initialContext now).2 =
    { st1 with
      procs := st1.procs ++ [(st1.nextPid,
        { stdinData := ClaudeCodeBridge.initialContext ++ ['\n'],
          exitWritten := false, killSignals := [] })]
      nextPid := st1.nextPid + 1
      activeProcesses := alSet projectId st1.nextPid st1.activeProcesses
      sessionStates := alSet projectId
        { projectId := projectId, procId := st1.nextPid, workingDir := wd,
          startTime := now, lastActivity := now, isInteractive := true }
        st1.sessionStates } := by
  have hkeysne : ∀ q ∈ st1.procs, q.1 ≠ st1.nextPid :=
    fun q hq => Nat.ne_of_lt (hfresh q hq)
  have hA : alLookup projectId
      (ClaudeCodeBridge.spawnAndRegister st1 projectId wd now).activeProcesses =
      some st1.nextPid := by
    simp [ClaudeCodeBridge.spawnAndRegister, alLookup_alSet_self]
  have hS : alLookup projectId
      (ClaudeCodeBridge.spawnAndRegister st1 projectId wd now).sessionStates =
      some { projectId := projectId, procId := st1.nextPid, workingDir := wd,
             startTime := now, lastActivity := now, isInteractive := true } := by
    simp [ClaudeCodeBridge.spawnAndRegister, alLookup_alSet_self]
  have hP : alLookup st1.nextPid
      (ClaudeCodeBridge.spawnAndRegister st1 projectId wd now).procs =
      some { stdinData := [], exitWritten := false, killSignals := [] } := by
    show alLookup st1.nextPid (st1.procs ++ _) = _
    rw [alLookup_append_none (alLookup_none_of_keys_ne hkeysne)]
    simp [alLookup]
  simp only [ClaudeCodeBridge.sendToSession, hA, hS, hP]
  rw [show (ClaudeCodeBridge.spawnAndRegister st1 projectId wd now).procs =
        st1.procs ++ [(st1.nextPid, { stdinData := [], exitWritten := false, killSignals := [] })]
      from rfl]
  rw [alSet_append_keys_ne _ hkeysne]
  simp [ClaudeCodeBridge.spawnAndRegister, alSet, alSet_alSet]

/-! ## Claim theorems -/

/-- C1: the path-confinement guard of `readFile`/`writeFile`/`listFiles` is a
string-prefix test on the joined path.  For the project rooted at
`/projects/p1`, the relative path `../p1evil/secret` resolves to
`/projects/p1evil/secret`, which lies outside the project root, yet the guard
passes and all three operations perform filesystem I/O there instead of
failing with the access-denied error — `readFile` returns the outside file's
content, `writeFile` creates a file outside the root, and `listFiles` lists
the sibling directory. -/
theorem c1_sibling_prefix_escape :
    withinRoot "/projects/p1".data
      (joinAbs "/projects/p1".data "../p1evil/secret".data) = false ∧
    securityCheckPasses "/projects/p1".data "../p1evil/secret".data = true ∧
    ProjectManager.readFile pmDemoState "p1" "../p1evil/secret" =
      Except.ok "outside-data".data ∧
    (ProjectManager.writeFile pmDemoState "p1" "../p1evil/pwned" "x".data).1 =
      Except.ok () ∧
    alLookup "/projects/p1evil/pwned".data
      (ProjectManager.writeFile pmDemoState "p1" "../p1evil/pwned" "x".data).2.fs =
      some "x".data ∧
    ProjectManager.listFiles pmDemoState "p1" "../p1evil" =
      Except.ok ["/projects/p1evil/secret".data] := by
  refine ⟨by decide, by decide, by decide, by decide, by decide, by decide⟩

/-- C3 counterexample: deleting a project that no longer exists does not
succeed — `deleteProject` raises the not-found error (the state is returned
unchanged only because the call aborts). -/
theorem c3_counterexample_delete_missing_errors :
    ProjectManager.deleteProject pmDemoState "ghost" true =
      (Except.error PMErr.notFound, pmDemoState) := by
  decide

/-- C3 (amended): `deleteProject` on an unknown or already-deleted projectId
fails with the not-found error and leaves all state unchanged, while
`killSession` on an already-cleaned-up terminal session returns `false`
(no exception) and leaves all state unchanged. -/
theorem c3_amended_missing_resources (pst : PMState) (tst : TMState)
    (projectId sessionId : String) (containerStopOk : Bool)
    (hp : alLookup projectId pst.projects = none)
    (hs : alLookup sessionId tst.sessions = none) :
    ProjectManager.deleteProject pst projectId containerStopOk =
      (Except.error PMErr.notFound, pst) ∧
    TerminalManager.killSession tst sessionId = (false, tst) := by
  constructor
  · simp [ProjectManager.deleteProject, hp]
  · simp [TerminalManager.killSession, hs]

/-- C3 witness: the amended statement evaluated at an unknown project id and
an unknown terminal session id. -/
theorem c3_amended_missing_resources_witness :
    ProjectManager.deleteProject pmDemoState "nosuch" true =
      (Except.error PMErr.notFound, pmDemoState) ∧
    TerminalManager.killSession tmDemoState "nosuch" = (false, tmDemoState) :=
  c3_amended_missing_resources pmDemoState tmDemoState "nosuch" "nosuch" true
    (by decide) (by decide)

/-- C4 counterexample: when the container stop/remove calls fail (for
instance because the container is already gone), `deleteProject` propagates
the error and the directory removal, the in-memory cleanup and the deletion
event are all skipped — the state is returned exactly as it was. -/
theorem c4_counterexample_stop_failure_skips_cleanup :
    ProjectManager.deleteProject pmDemoState "p1" false =
      (Except.error PMErr.dockerFail, pmDemoState) ∧
    "/projects/p1".data ∈ pmDemoState.dirs ∧
    alLookup "p1" pmDemoState.projects = some demoProject ∧
    pmDemoState.emitted = [] := by
  refine ⟨by decide, by decide, by decide, by decide⟩

/-- C4 (amended): for a known projectId, `deleteProject` with a bound
container stops and removes it, deletes the storage directory, clears the
in-memory entries and emits the deletion event — but only when the container
stop/remove calls succeed; when they fail the error propagates and directory
removal and in-memory cleanup are skipped.  When no container handle is
registered, removal proceeds regardless. -/
theorem c4_amended_delete_behaviour (st : PMState) (projectId : String)
    (project : ProjectInfo)
    (hp : alLookup projectId st.projects = some project) :
    (∀ cid, alLookup projectId st.containers = some cid →
      ProjectManager.deleteProject st projectId false =
        (Except.error PMErr.dockerFail, st) ∧
      (ProjectManager.deleteProject st projectId true).1 = Except.ok () ∧
      alLookup projectId (ProjectManager.deleteProject st projectId true).2.projects = none ∧
      alLookup projectId (ProjectManager.deleteProject st projectId true).2.containers = none ∧
      project.path ∉ (ProjectManager.deleteProject st projectId true).2.dirs ∧
      (ProjectManager.deleteProject st projectId true).2.emitted =
        st.emitted ++ [PMEvent.projectDeleted projectId]) ∧
    (alLookup projectId st.containers = none → ∀ containerStopOk,
      (ProjectManager.deleteProject st projectId containerStopOk).1 = Except.ok () ∧
      alLookup projectId
        (ProjectManager.deleteProject st projectId containerStopOk).2.projects = none ∧
      project.path ∉ (ProjectManager.deleteProject st projectId containerStopOk).2.dirs ∧
      (ProjectManager.deleteProject st projectId containerStopOk).2.emitted =
        st.emitted ++ [PMEvent.projectDeleted projectId]) := by
  constructor
  · intro cid hc
    refine ⟨?_, ?_, ?_, ?_, ?_, ?_⟩
    · simp [ProjectManager.deleteProject, hp, hc]
    · simp [ProjectManager.deleteProject, hp, hc]
    · simp [ProjectManager.deleteProject, hp, hc, ProjectManager.removePathRec,
        alLookup_alErase_self]
    · simp [ProjectManager.deleteProject, hp, hc, ProjectManager.removePathRec,
        alLookup_alErase_self]
    · simp only [ProjectManager.deleteProject, hp, hc, if_pos]
      exact not_mem_removePathRec_dirs _ _
    · simp [ProjectManager.deleteProject, hp, hc, ProjectManager.removePathRec]
  · intro hc containerStopOk
    refine ⟨?_, ?_, ?_, ?_⟩
    · simp [ProjectManager.deleteProject, hp, hc]
    · simp [ProjectManager.deleteProject, hp, hc, ProjectManager.removePathRec,
        alLookup_alErase_self]
    · simp only [ProjectManager.deleteProject, hp, hc]
      exact not_mem_removePathRec_dirs _ _
    · simp [ProjectManager.deleteProject, hp, hc, ProjectManager.removePathRec]

/-- C4 witness: the amended statement evaluated on the demo state, whose
project `p1` has a bound container. -/
theorem c4_amended_delete_behaviour_witness :
    ProjectManager.deleteProject pmDemoState "p1" false =
      (Except.error PMErr.dockerFail, pmDemoState) ∧
    alLookup "p1" (ProjectManager.deleteProject pmDemoState "p1" true).2.projects = none :=
  ⟨((c4_amended_delete_behaviour pmDemoState "p1" demoProject (by decide)).1 "cont1"
      (by decide)).1,
   (((c4_amended_delete_behaviour pmDemoState "p1" demoProject (by decide)).1 "cont1"
      (by decide)).2.2.1)⟩

/-- C5 counterexample: when the final config save of `createProject` fails,
the error propagates and the project directory is rolled back, but the
in-memory registrations made just before — the `projects` and `containers`
entries and the started container — survive the failure. -/
theorem c5_counterexample_partial_state_survives :
    (ProjectManager.createProject pmDemoState "p9" "demo" "empty" 0
      (some ProjectManager.CreateStep.saveStep2)).1 = Except.error PMErr.saveFail ∧
    (alLookup "p9" (ProjectManager.createProject pmDemoState "p9" "demo" "empty" 0
      (some ProjectManager.CreateStep.saveStep2)).2.projects).isSome = true ∧
    (alLookup "p9" (ProjectManager.createProject pmDemoState "p9" "demo" "empty" 0
      (some ProjectManager.CreateStep.saveStep2)).2.containers).isSome = true ∧
    alLookup "repliclaude_p9" (ProjectManager.createProject pmDemoState "p9" "demo" "empty" 0
      (some ProjectManager.CreateStep.saveStep2)).2.dockerContainers =
      some { containerId := "repliclaude_p9", started := true } ∧
    "/projects/p9".data ∉ (ProjectManager.createProject pmDemoState "p9" "demo" "empty" 0
      (some ProjectManager.CreateStep.saveStep2)).2.dirs := by
  refine ⟨by decide, by decide, by decide, by decide, by decide⟩

/-- C5 (amended): whichever step after directory creation fails — template
scaffold, either config save, container creation or container start — the
error propagates to the caller and the project directory has been removed;
registrations made before the failing step are not otherwise rolled back. -/
theorem c5_amended_rollback_removes_directory (st : PMState)
    (projectId name template : String) (now : Nat)
    (s : ProjectManager.CreateStep) :
    (∃ e, (ProjectManager.createProject st projectId name template now (some s)).1 =
      Except.error e) ∧
    joinAbs st.projectsDir projectId.data ∉
      (ProjectManager.createProject st projectId name template now (some s)).2.dirs := by
  cases s with
  | templateStep =>
    exact ⟨⟨PMErr.templateFail, by simp [ProjectManager.createProject]⟩,
      by simp only [ProjectManager.createProject, reduceIte]
         exact not_mem_removePathRec_dirs _ _⟩
  | saveStep1 =>
    exact ⟨⟨PMErr.saveFail, by simp [ProjectManager.createProject]⟩,
      by simp only [ProjectManager.createProject, reduceIte]
         exact not_mem_removePathRec_dirs _ _⟩
  | createContainerStep =>
    exact ⟨⟨PMErr.createContainerFail, by simp [ProjectManager.createProject]⟩,
      by simp only [ProjectManager.createProject, reduceIte]
         exact not_mem_removePathRec_dirs _ _⟩
  | startContainerStep =>
    exact ⟨⟨PMErr.startContainerFail, by simp [ProjectManager.createProject]⟩,
      by simp only [ProjectManager.createProject, reduceIte]
         exact not_mem_removePathRec_dirs _ _⟩
  | saveStep2 =>
    exact ⟨⟨PMErr.saveFail, by simp [ProjectManager.createProject]⟩,
      by simp only [ProjectManager.createProject, reduceIte]
         exact not_mem_removePathRec_dirs _ _⟩

/-- C7: a successful `writeFile` followed by `readFile` of the same relative
path in the same project returns exactly the written content. -/
theorem c7_write_read_roundtrip (st : PMState) (projectId filePath : String)
    (content : List Char) (st2 : PMState)
    (h : ProjectManager.writeFile st projectId filePath content = (Except.ok (), st2)) :
    ProjectManager.readFile st2 projectId filePath = Except.ok content := by
  unfold ProjectManager.writeFile ProjectManager.getProjectPath at h
  cases hl : alLookup projectId st.projects with
  | none => rw [hl] at h; simp at h
  | some p =>
    rw [hl] at h
    by_cases hc : isPfx p.path (joinAbs p.path filePath.data) = true
    · simp only [hc, Bool.not_true, Bool.false_eq_true, if_false] at h
      have hst2 := (Prod.mk.injEq _ _ _ _ ▸ h).2
      subst hst2
      unfold ProjectManager.readFile ProjectManager.getProjectPath
      simp [hl, hc, alLookup_alSet_self]
    · simp only [Bool.not_eq_true] at hc
      simp [hc] at h

/-- C7 witness: write `hello` to `notes.txt` in the demo project and read it
back. -/
theorem c7_write_read_roundtrip_witness :
    ProjectManager.readFile
      (ProjectManager.writeFile pmDemoState "p1" "notes.txt" "hello".data).2
      "p1" "notes.txt" = Except.ok "hello".data :=
  c7_write_read_roundtrip pmDemoState "p1" "notes.txt" "hello".data
    (ProjectManager.writeFile pmDemoState "p1" "notes.txt" "hello".data).2 (by decide)

/-- C8 counterexample: `listProjects` returns the stored records and leaves
the manager state completely unchanged — in particular it does not refresh
any project's `lastAccessed` timestamp (the demo project keeps the stale
value `5` no matter when the listing happens). -/
theorem c8_counterexample_list_does_not_refresh :
    (ProjectManager.listProjects pmDemoState).2 = pmDemoState ∧
    (ProjectManager.listProjects pmDemoState).1.map (fun p => p.lastAccessed) = [5] := by
  refine ⟨by decide, by decide⟩

/-- C8 (amended): `getProjectInfo` fails with not-found on an unknown id and
otherwise returns the record with `lastAccessed` refreshed to the current
instant, persisting the refresh; `listProjects` returns the current records
without refreshing `lastAccessed` (the state is unchanged). -/
theorem c8_amended_get_refreshes_list_does_not (st : PMState) (projectId : String)
    (now : Nat) :
    (alLookup projectId st.projects = none →
      ProjectManager.getProjectInfo st projectId now = (Except.error PMErr.notFound, st)) ∧
    (∀ p, alLookup projectId st.projects = some p →
      (ProjectManager.getProjectInfo st projectId now).1 =
        Except.ok { p with lastAccessed := now } ∧
      alLookup projectId (ProjectManager.getProjectInfo st projectId now).2.projects =
        some { p with lastAccessed := now }) ∧
    (ProjectManager.listProjects st).1 = st.projects.map (fun kv => kv.2) ∧
    (ProjectManager.listProjects st).2 = st := by
  refine ⟨?_, ?_, rfl, rfl⟩
  · intro hnone
    simp [ProjectManager.getProjectInfo, hnone]
  · intro p hl
    constructor
    · simp [ProjectManager.getProjectInfo, hl]
    · simp [ProjectManager.getProjectInfo, ProjectManager.saveProjectConfig, hl,
        alLookup_alSet_self]

/-- C8 witness: the amended statement evaluated on the demo project at
instant 10. -/
theorem c8_amended_witness :
    (ProjectManager.getProjectInfo pmDemoState "p1" 10).1 =
      Except.ok { demoProject with lastAccessed := 10 } :=
  (((c8_amended_get_refreshes_list_does_not pmDemoState "p1" 10).2.1) demoProject
    (by decide)).1

/-- C9: the four pty operations return a success flag instead of raising —
when the session is missing or inactive each returns `false` with the manager
state unchanged, and on a live session each returns `true`. -/
theorem c9_pty_ops_success_flag (st : TMState) (sessionId : String)
    (data : List Char) (now cols rows : Nat) :
    (TerminalManager.sessionMissingOrInactive st sessionId = true →
      TerminalManager.writeToSession st sessionId data now = (false, st) ∧
      TerminalManager.resizeSession st sessionId cols rows = (false, st) ∧
      TerminalManager.interruptSession st sessionId = (false, st) ∧
      TerminalManager.clearSession st sessionId = (false, st)) ∧
    (∀ s, alLookup sessionId st.sessions = some s → s.isActive = true →
      (TerminalManager.writeToSession st sessionId data now).1 = true ∧
      (TerminalManager.resizeSession st sessionId cols rows).1 = true ∧
      (TerminalManager.interruptSession st sessionId).1 = true ∧
      (TerminalManager.clearSession st sessionId).1 = true) := by
  constructor
  · intro hguard
    unfold TerminalManager.sessionMissingOrInactive at hguard
    cases hl : alLookup sessionId st.sessions with
    | none =>
      simp [TerminalManager.writeToSession, TerminalManager.resizeSession,
        TerminalManager.interruptSession, TerminalManager.clearSession, hl]
    | some s =>
      rw [hl] at hguard
      simp only [Bool.not_eq_true'] at hguard
      simp [TerminalManager.writeToSession, TerminalManager.resizeSession,
        TerminalManager.interruptSession, TerminalManager.clearSession, hl, hguard]
  · intro s hl hact
    simp [TerminalManager.writeToSession, TerminalManager.resizeSession,
      TerminalManager.interruptSession, TerminalManager.clearSession, hl, hact]

/-- C9 witness: the dead session `term2` makes every operation report
`false` without touching the state; the live session `term1` accepts a
write. -/
theorem c9_pty_ops_success_flag_witness :
    TerminalManager.writeToSession tmDemoState "term2" "x".data 1 = (false, tmDemoState) ∧
    (TerminalManager.writeToSession tmDemoState "term1" "x".data 1).1 = true :=
  ⟨((c9_pty_ops_success_flag tmDemoState "term2" "x".data 1 80 24).1 (by decide)).1,
   ((c9_pty_ops_success_flag tmDemoState "term1" "x".data 1 80 24).2 liveSession
     (by decide) (by decide)).1⟩

theorem startInteractiveSession_unfold (st : BridgeState) (projectId : String)
    (wd : FPath) (now : Nat) (hav : st.isClaudeCodeAvailable = true) :
    (ClaudeCodeBridge.startInteractiveSession st projectId wd now).2 =
    (ClaudeCodeBridge.sendToSession (ClaudeCodeBridge.spawnAndRegister
      (ClaudeCodeBridge.terminateSession st projectId).2 projectId wd now)
      projectId ClaudeCodeBridge.initialContext now).2 := by
  simp [ClaudeCodeBridge.startInteractiveSession, hav]

/-- C2: under the bridge's natural invariants (every registry key bound at
most once and every registered pid below `nextPid`), starting an interactive
session keeps every projectId bound to at most one AgentSession, and two
consecutive `startInteractiveSession` calls for the same projectId leave
exactly one registered AgentSession and one active-process entry, while the
first call's process has received the graceful `exit` write and the scheduled
`SIGTERM` — it was terminated before the second registration. -/
theorem c2_at_most_one_agent_session (st : BridgeState) (projectId : String)
    (wd : FPath) (n1 n2 : Nat)
    (hav : st.isClaudeCodeAvailable = true)
    (hkS : ∀ k, countKey k st.sessionStates ≤ 1)
    (hfresh : ∀ q ∈ st.procs, q.1 < st.nextPid) :
    (∀ k, countKey k
      (ClaudeCodeBridge.startInteractiveSession st projectId wd n1).2.sessionStates ≤ 1) ∧
    countKey projectId
      (ClaudeCodeBridge.startInteractiveSession
        (ClaudeCodeBridge.startInteractiveSession st projectId wd n1).2
        projectId wd n2).2.sessionStates = 1 ∧
    countKey projectId
      (ClaudeCodeBridge.startInteractiveSession
        (ClaudeCodeBridge.startInteractiveSession st projectId wd n1).2
        projectId wd n2).2.activeProcesses = 1 ∧
    (∃ pr, alLookup st.nextPid
      (ClaudeCodeBridge.startInteractiveSession
        (ClaudeCodeBridge.startInteractiveSession st projectId wd n1).2
        projectId wd n2).2.procs = some pr ∧
      pr.exitWritten = true ∧ "SIGTERM" ∈ pr.killSignals) := by
  obtain ⟨pA1, pA2, pA3, pA4, pA5⟩ := terminateSession_props st projectId
  have h1 := startInteractiveSession_unfold st projectId wd n1 hav
  have hfreshA : ∀ q ∈ (ClaudeCodeBridge.terminateSession st projectId).2.procs,
      q.1 < (ClaudeCodeBridge.terminateSession st projectId).2.nextPid := by
    rw [pA2]
    exact pA5 st.nextPid hfresh
  rw [startBody_eq _ projectId wd n1 hfreshA] at h1
  -- facts about the state after the first call
  have fAvail1 : (ClaudeCodeBridge.startInteractiveSession st projectId wd n1).2.isClaudeCodeAvailable = true := by
    rw [h1]
    exact pA1.trans hav
  have fNext1 : (ClaudeCodeBridge.startInteractiveSession st projectId wd n1).2.nextPid =
      st.nextPid + 1 := by
    rw [h1]
    show (ClaudeCodeBridge.terminateSession st projectId).2.nextPid + 1 = st.nextPid + 1
    rw [pA2]
  have fA3 : alLookup projectId
      (ClaudeCodeBridge.startInteractiveSession st projectId wd n1).2.activeProcesses =
      some st.nextPid := by
    rw [h1]
    show alLookup projectId (alSet projectId _ _) = _
    rw [alLookup_alSet_self, pA2]
  have fS4 : ∃ s, alLookup projectId
      (ClaudeCodeBridge.startInteractiveSession st projectId wd n1).2.sessionStates =
      some s := by
    rw [h1]
    exact ⟨_, alLookup_alSet_self _ _ _⟩
  have fP5 : alLookup st.nextPid
      (ClaudeCodeBridge.startInteractiveSession st projectId wd n1).2.procs =
      some { stdinData := ClaudeCodeBridge.initialContext ++ ['\n'],
             exitWritten := false, killSignals := [] } := by
    rw [h1]
    show alLookup st.nextPid ((ClaudeCodeBridge.terminateSession st projectId).2.procs ++ _) = _
    rw [alLookup_append_none (alLookup_none_of_keys_ne
      (fun q hq => Nat.ne_of_lt (pA5 st.nextPid hfresh q hq)))]
    simp [alLookup, pA2]
  have fkS1 : ∀ k, countKey k
      (ClaudeCodeBridge.startInteractiveSession st projectId wd n1).2.sessionStates ≤ 1 := by
    rw [h1]
    exact countKeyOnce_alSet _ _ _ (fun k => le_trans (pA3 k) (hkS k))
  have ffresh1 : ∀ q ∈ (ClaudeCodeBridge.startInteractiveSession st projectId wd n1).2.procs,
      q.1 < (ClaudeCodeBridge.startInteractiveSession st projectId wd n1).2.nextPid := by
    rw [h1]
    intro q hq
    rcases List.mem_append.mp hq with hq1 | hq1
    · exact Nat.lt_succ_of_lt (hfreshA q hq1)
    · rcases List.mem_singleton.mp hq1 with rfl
      exact Nat.lt_succ_self _
  -- the second call
  obtain ⟨S1v, fS4⟩ := fS4
  have hTf := terminateSession_found _ projectId st.nextPid S1v fA3 fS4
  have hT2 : (ClaudeCodeBridge.terminateSession
      (ClaudeCodeBridge.startInteractiveSession st projectId wd n1).2 projectId).2 =
      { (ClaudeCodeBridge.startInteractiveSession st projectId wd n1).2 with
        procs := ClaudeCodeBridge.markTerminated st.nextPid
          (ClaudeCodeBridge.startInteractiveSession st projectId wd n1).2.procs
        activeProcesses := alErase projectId
          (ClaudeCodeBridge.startInteractiveSession st projectId wd n1).2.activeProcesses
        sessionStates := alErase projectId
          (ClaudeCodeBridge.startInteractiveSession st projectId wd n1).2.sessionStates } := by
    rw [hTf]
  have hfreshT : ∀ q ∈ (ClaudeCodeBridge.terminateSession
      (ClaudeCodeBridge.startInteractiveSession st projectId wd n1).2 projectId).2.procs,
      q.1 < (ClaudeCodeBridge.terminateSession
        (ClaudeCodeBridge.startInteractiveSession st projectId wd n1).2 projectId).2.nextPid := by
    rw [hT2]
    exact markTerminated_keys_lt _ _ _ ffresh1
  have h2 := startInteractiveSession_unfold
    (ClaudeCodeBridge.startInteractiveSession st projectId wd n1).2 projectId wd n2 fAvail1
  rw [startBody_eq _ projectId wd n2 hfreshT] at h2
  rw [h2, hT2]
  have hmarked : alLookup st.nextPid
      (ClaudeCodeBridge.markTerminated st.nextPid
        (ClaudeCodeBridge.startInteractiveSession st projectId wd n1).2.procs) =
      some { stdinData := ClaudeCodeBridge.initialContext ++ ['\n'], exitWritten := true,
             killSignals := ["SIGTERM"] } := by
    rw [markTerminated_eq _ _ _ fP5]
    exact alLookup_alSet_self _ _ _
  refine ⟨fkS1, ?_, ?_, ?_⟩
  · exact countKey_alSet_self _ _ _ (by rw [countKey_alErase]; exact Nat.zero_le _)
  · exact countKey_alSet_self _ _ _ (by rw [countKey_alErase]; exact Nat.zero_le _)
  · refine ⟨{ stdinData := ClaudeCodeBridge.initialContext ++ ['\n']
              exitWritten := true
              killSignals := ["SIGTERM"] }, ?_, rfl, by simp⟩
    show alLookup st.nextPid (ClaudeCodeBridge.markTerminated st.nextPid _ ++ _) = _
    exact alLookup_append_left hmarked

/-- C2 witness: two consecutive session starts for `p1` from the empty
bridge state leave exactly one registered AgentSession, and the first
process (pid 0) carries the termination marks. -/
theorem c2_at_most_one_agent_session_witness :
    countKey "p1" (ClaudeCodeBridge.startInteractiveSession
      (ClaudeCodeBridge.startInteractiveSession bridgeEmptyState "p1" [] 0).2
      "p1" [] 1).2.sessionStates = 1 ∧
    (∃ pr, alLookup 0 (ClaudeCodeBridge.startInteractiveSession
      (ClaudeCodeBridge.startInteractiveSession bridgeEmptyState "p1" [] 0).2
      "p1" [] 1).2.procs = some pr ∧
      pr.exitWritten = true ∧ "SIGTERM" ∈ pr.killSignals) :=
  ⟨(c2_at_most_one_agent_session bridgeEmptyState "p1" [] 0 1 (by decide)
      (by intro k; simp [bridgeEmptyState, countKey])
      (by simp [bridgeEmptyState])).2.1,
   (c2_at_most_one_agent_session bridgeEmptyState "p1" [] 0 1 (by decide)
      (by intro k; simp [bridgeEmptyState, countKey])
      (by simp [bridgeEmptyState])).2.2.2⟩

theorem execRun_quiet_invariant (evs : List ClaudeCodeBridge.ExecEv) :
    ∀ s : ClaudeCodeBridge.ExecState,
    (∀ e ∈ evs, ClaudeCodeBridge.isExitEvent e = false) →
    s.settled = none → s.timeoutArmed = true → s.handleRegistered = true → s.killed = false →
    (evs.foldl ClaudeCodeBridge.execStep s).settled = none ∧
    (evs.foldl ClaudeCodeBridge.execStep s).timeoutArmed = true ∧
    (evs.foldl ClaudeCodeBridge.execStep s).handleRegistered = true ∧
    (evs.foldl ClaudeCodeBridge.execStep s).killed = false := by
  induction evs with
  | nil =>
    intro s _ h1 h2 h3 h4
    exact ⟨h1, h2, h3, h4⟩
  | cons e t ih =>
    intro s hq h1 h2 h3 h4
    have he := hq e (List.mem_cons_self _ _)
    have ht := fun e2 he2 => hq e2 (List.mem_cons_of_mem _ he2)
    cases e with
    | stdoutData d =>
      exact ih _ ht (by simpa [ClaudeCodeBridge.execStep] using h1)
        (by simpa [ClaudeCodeBridge.execStep] using h2)
        (by simpa [ClaudeCodeBridge.execStep] using h3)
        (by simpa [ClaudeCodeBridge.execStep] using h4)
    | stderrData d =>
      exact ih _ ht (by simpa [ClaudeCodeBridge.execStep] using h1)
        (by simpa [ClaudeCodeBridge.execStep] using h2)
        (by simpa [ClaudeCodeBridge.execStep] using h3)
        (by simpa [ClaudeCodeBridge.execStep] using h4)
    | timeoutFire => simp [ClaudeCodeBridge.isExitEvent] at he
    | closeEv code => simp [ClaudeCodeBridge.isExitEvent] at he
    | errorEv => simp [ClaudeCodeBridge.isExitEvent] at he

/-- C6: a non-interactive `executeCommand` whose process produces only
stream data — no exit, no spawn error — within the 30000 ms timeout window
is force-killed when the timeout fires and the call settles rejected with
the timeout error; once the killed process's `close` event arrives, the
registered handle for it is gone and the process has exited. -/
theorem c6_timeout_kills_and_unregisters (evs : List ClaudeCodeBridge.ExecEv)
    (code : Int)
    (h : ∀ e ∈ evs, ClaudeCodeBridge.isExitEvent e = false) :
    ClaudeCodeBridge.execTimeoutMs = 30000 ∧
    (ClaudeCodeBridge.execRun false
      (evs ++ [ClaudeCodeBridge.ExecEv.timeoutFire])).settled =
      some (Except.error ClaudeCodeBridge.ExecErr.commandTimedOut) ∧
    (ClaudeCodeBridge.execRun false
      (evs ++ [ClaudeCodeBridge.ExecEv.timeoutFire])).killed = true ∧
    (ClaudeCodeBridge.execRun false
      (evs ++ [ClaudeCodeBridge.ExecEv.timeoutFire,
        ClaudeCodeBridge.ExecEv.closeEv code])).settled =
      some (Except.error ClaudeCodeBridge.ExecErr.commandTimedOut) ∧
    (ClaudeCodeBridge.execRun false
      (evs ++ [ClaudeCodeBridge.ExecEv.timeoutFire,
        ClaudeCodeBridge.ExecEv.closeEv code])).killed = true ∧
    (ClaudeCodeBridge.execRun false
      (evs ++ [ClaudeCodeBridge.ExecEv.timeoutFire,
        ClaudeCodeBridge.ExecEv.closeEv code])).handleRegistered = false ∧
    (ClaudeCodeBridge.execRun false
      (evs ++ [ClaudeCodeBridge.ExecEv.timeoutFire,
        ClaudeCodeBridge.ExecEv.closeEv code])).exitCode = some code := by
  obtain ⟨h1, h2, h3, h4⟩ := execRun_quiet_invariant evs (ClaudeCodeBridge.execInit false) h
    (by simp [ClaudeCodeBridge.execInit]) (by simp [ClaudeCodeBridge.execInit])
    (by simp [ClaudeCodeBridge.execInit]) (by simp [ClaudeCodeBridge.execInit])
  unfold ClaudeCodeBridge.execRun
  rw [List.foldl_append, List.foldl_append]
  refine ⟨rfl, ?_, ?_, ?_, ?_, ?_, ?_⟩ <;>
    simp [List.foldl, ClaudeCodeBridge.execStep, h1, h2, h3, h4]

/-- C6 witness: a process that has printed some partial output and not
exited is killed at the timeout, the call is rejected with the timeout
error, and after the close event the handle is unregistered. -/
theorem c6_timeout_kills_and_unregisters_witness :
    (ClaudeCodeBridge.execRun false
      ([ClaudeCodeBridge.ExecEv.stdoutData "partial".data] ++
        [ClaudeCodeBridge.ExecEv.timeoutFire])).settled =
      some (Except.error ClaudeCodeBridge.ExecErr.commandTimedOut) ∧
    (ClaudeCodeBridge.execRun false
      ([ClaudeCodeBridge.ExecEv.stdoutData "partial".data] ++
        [ClaudeCodeBridge.ExecEv.timeoutFire,
         ClaudeCodeBridge.ExecEv.closeEv 143])).handleRegistered = false :=
  ⟨(c6_timeout_kills_and_unregisters [ClaudeCodeBridge.ExecEv.stdoutData "partial".data]
      143 (by decide)).2.1,
   (c6_timeout_kills_and_unregisters [ClaudeCodeBridge.ExecEv.stdoutData "partial".data]
      143 (by decide)).2.2.2.2.2.1⟩

/-- C10: `TerminalManager.executeCommand` always rejects with the reference
error on `process` — the spawn options read the block-scoped `const process`
inside its own initializer, which is in the temporal dead zone — and no child
process is ever spawned, so the call can never resolve with the command's
output. -/
theorem c10_executeCommand_always_rejects (globalEnv : List (String × String))
    (projectId command : String) (workingDir : Option FPath) :
    TerminalManager.executeCommand globalEnv projectId command workingDir =
      { promise := Except.error (JsException.referenceError "process"),
        spawned := false } := by
  simp [TerminalManager.executeCommand, TerminalManager.evalSpawnOpts,
    TerminalManager.executorScopeAtSpawn, resolveIdent, alLookup]

end RCMax
